import Mathlib

/-!
Verification development for the Trade_dex backend ingestion pipeline.

Shallow embedding of the Rust sources:
  src/backend/src/models/trade.rs            (Trade record)
  src/backend/src/services/quicknode_ws.rs   (subscription loop, construct_trade,
                                              mint_to_symbol, is_allowed_mint)
  src/backend/src/services/trade_stream.rs   (supervisor price validation, price ticker)
  src/backend/src/services/pair_mapping.rs   (symbol_to_mint, parse_pair, pair_to_mints)
  src/backend/src/websocket/manager.rs       (ConnectionManager)
  src/backend/src/websocket/handler.rs       (select_pair command handling)

Modelling conventions: the f64 UI-scaled token amounts are modelled by rationals
(exact on the small concrete inputs used here); the supervisor's price check,
which must distinguish NaN and infinities, uses an explicit value type FVal.
Wall-clock time is threaded as an explicit parameter.  HashMap / HashSet state
is modelled by lists of distinct keys; the nondeterministic HashMap iteration
order is fixed to first-appearance order, and the descending delta sort is an
insertion sort (the Rust sort is stable over an arbitrary iteration order, so
any fixed order is one of its admissible behaviours; no claim depends on the
tie-breaking order).
-/

namespace TradeDex

/-- Trade record, from models/trade.rs.  The chrono timestamp is modelled as
unix seconds. -/
structure Trade where
  id : String
  timestamp : Int
  base_symbol : String
  quote_symbol : String
  base_mint : String
  quote_mint : String
  price : ℚ
  amount : ℚ
  side : String
  total_value : ℚ
  dex_program : String
  slot : Nat
deriving Repr, DecidableEq

/-- TokenAmount (quicknode_ws.rs): the uiAmount field of a uiTokenAmount. -/
structure TokenAmount where
  ui_amount : Option ℚ
deriving Repr, DecidableEq

/-- TokenBalance (quicknode_ws.rs): one pre/post token-balance entry. -/
structure TokenBalance where
  account_index : Nat
  mint : String
  ui_token_amount : Option TokenAmount
deriving Repr, DecidableEq

/-- TransactionMeta (quicknode_ws.rs): the fields of meta that
construct_trade reads.  The err value is opaque; only its presence matters. -/
structure TransactionMeta where
  pre_token_balances : Option (List TokenBalance)
  post_token_balances : Option (List TokenBalance)
  log_messages : Option (List String)
  err : Option String
deriving Repr, DecidableEq

/-- TransactionData (quicknode_ws.rs). -/
structure TransactionData where
  slot : Nat
  block_time : Option Int
  meta : Option TransactionMeta
deriving Repr, DecidableEq

/-- LogValue (quicknode_ws.rs): payload of a logsNotification. -/
structure LogValue where
  signature : String
  err : Option String
  logs : List String
deriving Repr, DecidableEq

/-- One parsed logsNotification: context.slot plus value
(LogNotificationParams.result in quicknode_ws.rs). -/
structure LogNotif where
  slot : Nat
  value : LogValue
deriving Repr, DecidableEq

/-- Amount extracted from a TokenBalance entry:
balance.ui_token_amount.and_then(ui_amount).unwrap_or(0.0). -/
def balanceAmount (b : TokenBalance) : ℚ :=
  (b.ui_token_amount.bind TokenAmount.ui_amount).getD 0

/-- Aggregated balance for one mint: the value the pre_map / post_map HashMap
holds after folding all entries with `*map.entry(mint).or_insert(0.0) += amount`,
and 0 for a mint absent from the map (`copied().unwrap_or(0.0)`). -/
def aggAmount (bs : List TokenBalance) (mint : String) : ℚ :=
  ((bs.filter fun b => b.mint = mint).map balanceAmount).sum

/-- Distinct mints occurring in a balance list (HashMap key set). -/
def mintKeys (bs : List TokenBalance) : List String :=
  (bs.map TokenBalance.mint).dedup

/-- all_mints: union of the pre and post key sets. -/
def allMints (pre post : List TokenBalance) : List String :=
  (mintKeys pre ++ mintKeys post).dedup

/-- Absolute value written as the conditional f64::abs computes; kept as a
definition of its own so concrete runs evaluate by unfolding. -/
def ratAbs (q : ℚ) : ℚ := if q < 0 then -q else q

/-- delta for one mint: (post - pre).abs() over the aggregated maps. -/
def mintDelta (pre post : List TokenBalance) (mint : String) : ℚ :=
  ratAbs (aggAmount post mint - aggAmount pre mint)

/-- mint_deltas: (mint, delta) pairs for the mints whose delta is strictly
positive (`if delta > 0.0 { mint_deltas.insert(mint, delta) }`). -/
def mintDeltas (pre post : List TokenBalance) : List (String × ℚ) :=
  ((allMints pre post).map fun m => (m, mintDelta pre post m)).filter
    fun p => 0 < p.2

/-- sorted_deltas: the delta pairs sorted by delta descending
(`sorted_deltas.sort_by(|a, b| b.1.partial_cmp(a.1))`). -/
def sortedDeltas (pre post : List TokenBalance) : List (String × ℚ) :=
  (mintDeltas pre post).insertionSort fun a b => b.2 ≤ a.2

/-- base_mint: rank-0 (largest-delta) mint, UNKNOWN placeholder when absent. -/
def baseMint (pre post : List TokenBalance) : String :=
  (((sortedDeltas pre post)[0]?).map Prod.fst).getD "UNKNOWN"

/-- quote_mint: rank-1 mint, UNKNOWN placeholder when absent. -/
def quoteMint (pre post : List TokenBalance) : String :=
  (((sortedDeltas pre post)[1]?).map Prod.fst).getD "UNKNOWN"

/-- base_amount = (post_base - pre_base).abs(). -/
def baseAmount (pre post : List TokenBalance) : ℚ :=
  ratAbs (aggAmount post (baseMint pre post) - aggAmount pre (baseMint pre post))

/-- quote_amount = (post_quote - pre_quote).abs(). -/
def quoteAmount (pre post : List TokenBalance) : ℚ :=
  ratAbs (aggAmount post (quoteMint pre post) - aggAmount pre (quoteMint pre post))

/-- final_price: quote_amount / base_amount, 0 on zero base_amount. -/
def finalPrice (pre post : List TokenBalance) : ℚ :=
  if 0 < baseAmount pre post then quoteAmount pre post / baseAmount pre post else 0

/-- base_delta = post_base - pre_base (signed). -/
def baseDelta (pre post : List TokenBalance) : ℚ :=
  aggAmount post (baseMint pre post) - aggAmount pre (baseMint pre post)

/-- side: buy when the base mint's signed delta is positive, else sell. -/
def sideOf (pre post : List TokenBalance) : String :=
  if 0 < baseDelta pre post then "buy" else "sell"

/-- mint_to_symbol (quicknode_ws.rs). -/
def mint_to_symbol (mint : String) : String :=
  if mint = "So11111111111111111111111111111111111111112" then "SOL"
  else if mint = "EPjFWdd5AufqSSqeM2qN1xzybapC8G4wEGGkZwyTDt1v" then "USDC"
  else if mint = "Es9vMFrzaCERmJfrF4H2FYD4KCoNkY11McCe8BenwNYB" then "USDT"
  else if mint = "DezXAZ8z7PnrnRJjz3wXBoRgixCa6xjnB7YaB1pPB263" then "BONK"
  else if mint = "JUPyiwrYJFskUPiHa7hkeR8VUtAeFoSYbKedZNsDvCN" then "JUP"
  else if mint = "EKpQGSJtjMFqKZ9KQanSqYXRcF8fBopzLHYxdM65zcjm" then "WIF"
  else if mint = "4k3Dyjzvzp8eMZWUXbBCjEvwSkkk59S5iCNLY3QrkX6R" then "RAY"
  else "UNKNOWN"

/-- is_allowed_mint (quicknode_ws.rs): the fixed seven-token allow-list. -/
def is_allowed_mint (mint : String) : Bool :=
  mint = "So11111111111111111111111111111111111111112" ∨
  mint = "EPjFWdd5AufqSSqeM2qN1xzybapC8G4wEGGkZwyTDt1v" ∨
  mint = "Es9vMFrzaCERmJfrF4H2FYD4KCoNkY11McCe8BenwNYB" ∨
  mint = "DezXAZ8z7PnrnRJjz3wXBoRgixCa6xjnB7YaB1pPB263" ∨
  mint = "JUPyiwrYJFskUPiHa7hkeR8VUtAeFoSYbKedZNsDvCN" ∨
  mint = "EKpQGSJtjMFqKZ9KQanSqYXRcF8fBopzLHYxdM65zcjm" ∨
  mint = "4k3Dyjzvzp8eMZWUXbBCjEvwSkkk59S5iCNLY3QrkX6R"

/-- Substring test, modelling Rust str::contains. -/
def strContains (s pat : String) : Bool :=
  s.toList.tails.any fun t => pat.toList.isPrefixOf t

/-- dex_program resolution: substring-match each program id against the joined
log messages, first match wins, Unknown when none match or logs are absent. -/
def dexProgramOf : Option (List String) → String
  | none => "Unknown"
  | some logs =>
    let logs_str := String.intercalate " " logs
    if strContains logs_str "JUP6LkbZbjS1jKKwapdHNy74zcZ3tLUZoi5QNyVTaV4" then "Jupiter v6"
    else if strContains logs_str "JUP4Fb2cqiRUcaTHdrPC8h2gNsA2ETXiPDD33WcGuJB" then "Jupiter v4"
    else if strContains logs_str "675kPX9MHTjS2zt1qfr1NYHuzeLXfQM9H24wFSUt1Mp8" then "Raydium"
    else if strContains logs_str "9W959DqEETiGZocYWCQPaJ6sBmUzgfxXfqGeTEdp3aQP" then "Orca"
    else if strContains logs_str "9H6tua7jkLhdm3w8BvgpTn5LZNU7g4ZynDmCiNN3q6Rp" then "Meteora"
    else if strContains logs_str "PhoeNiXZ8ByJGLkxNfZRnkUfjvmuYqLRJi5i4Z2j3Yc" then "Phoenix"
    else "Unknown"

/-- construct_trade (quicknode_ws.rs lines 298-465).  `now` models
Utc::now().timestamp(), used only when block_time is absent. -/
def construct_trade (signature : String) (slot : Nat) (tx_data : TransactionData)
    (now : Int) : Option Trade :=
  match tx_data.meta with
  | none => none
  | some meta =>
    let pre_balances := meta.pre_token_balances.getD []
    let post_balances := meta.post_token_balances.getD []
    let base_mint := baseMint pre_balances post_balances
    let quote_mint := quoteMint pre_balances post_balances
    if ¬(is_allowed_mint base_mint ∧ is_allowed_mint quote_mint) then
      none
    else
      some
        { id := signature
          timestamp := tx_data.block_time.getD now
          base_symbol := mint_to_symbol base_mint
          quote_symbol := mint_to_symbol quote_mint
          base_mint := base_mint
          quote_mint := quote_mint
          price := finalPrice pre_balances post_balances
          amount := baseAmount pre_balances post_balances
          side := sideOf pre_balances post_balances
          total_value := finalPrice pre_balances post_balances *
            baseAmount pre_balances post_balances
          dex_program := dexProgramOf meta.log_messages
          slot := slot }

/-- The two candidate (base, quote) mints of a transaction record: the two
largest-delta mints, UNKNOWN placeholders when missing (a record without meta
has no balance data, hence both slots are the placeholder). -/
def txCandidates (tx_data : TransactionData) : String × String :=
  match tx_data.meta with
  | none => ("UNKNOWN", "UNKNOWN")
  | some meta =>
    let pre_balances := meta.pre_token_balances.getD []
    let post_balances := meta.post_token_balances.getD []
    (baseMint pre_balances post_balances, quoteMint pre_balances post_balances)

/-! Subscription loop (quicknode_ws.rs, start_subscription lines 193-262).
The seen-signature HashSet is modelled by a list of distinct signatures:
insertion only happens when the signature is absent, so the list length is the
set's size. -/

/-- seen_signatures.contains(signature). -/
def seenContains (seen : List String) (s : String) : Bool :=
  seen.any fun x => x = s

/-- One iteration of the notification loop for a parsed logsNotification:
dedup check, insert, cap-clear at 1000, failed-transaction check, then
dispatch of the (signature, slot) fetch.  Returns the new seen set and the
dispatched fetch, if any. -/
def subStep (seen : List String) (n : LogNotif) : List String × Option (String × Nat) :=
  let signature := n.value.signature
  if seenContains seen signature then (seen, none)
  else
    let inserted := signature :: seen
    let seen2 := if 1000 < inserted.length then [] else inserted
    if (n.value.err).isSome then (seen2, none)
    else (seen2, some (signature, n.slot))

/-- Whether this iteration triggers the `seen_signatures.clear()` branch. -/
def stepClears (seen : List String) (n : LogNotif) : Bool :=
  !seenContains seen n.value.signature &&
    decide (1000 < (n.value.signature :: seen).length)

/-- Run the notification loop over a sequence of parsed notifications,
collecting every dispatched (signature, slot) fetch in order. -/
def subRun (seen : List String) : List LogNotif → List String × List (String × Nat)
  | [] => (seen, [])
  | n :: rest =>
    let out := subStep seen n
    let res := subRun out.1 rest
    (res.1, out.2.toList ++ res.2)

/-- The run never takes the cap-clear branch (the seen set never exceeds the
1000-entry cap). -/
def noClear (seen : List String) : List LogNotif → Bool
  | [] => true
  | n :: rest => !stepClears seen n && noClear (subStep seen n).1 rest

/-- Number of occurrences of signature s in a notification sequence. -/
def countSig (s : String) (ns : List LogNotif) : Nat :=
  (ns.filter fun n => n.value.signature = s).length

/-- Number of dispatched fetches carrying signature s. -/
def countDispatch (s : String) (ds : List (String × Nat)) : Nat :=
  (ds.filter fun d => d.1 = s).length

/-- Whether the first notification for signature s in the sequence carries a
non-null err field. -/
def firstSigFailed (s : String) (ns : List LogNotif) : Bool :=
  match (ns.filter fun n => n.value.signature = s).head? with
  | some n => n.value.err.isSome
  | none => false

/-! Supervisor price validation (trade_stream.rs, start lines 134-170).
The incoming trade's f64 price is modelled by an explicit value type able to
represent NaN and the infinities, since the check distinguishes them. -/

/-- An f64 price value: NaN, the two infinities, or a finite rational. -/
inductive FVal where
  | nan : FVal
  | inf : FVal
  | ninf : FVal
  | fin : ℚ → FVal
deriving Repr, DecidableEq

/-- IEEE comparison `price <= 0.0`: false on NaN, true on negative infinity. -/
def fvalLeZero : FVal → Bool
  | .nan => false
  | .inf => false
  | .ninf => true
  | .fin q => q ≤ 0

/-- f64::is_infinite. -/
def fvalIsInfinite : FVal → Bool
  | .inf => true
  | .ninf => true
  | _ => false

/-- f64::is_nan. -/
def fvalIsNaN : FVal → Bool
  | .nan => true
  | _ => false

/-- A trade as received on the supervisor's channel: the Trade record with
its f64 price kept as an FVal. -/
structure StreamTrade where
  id : String
  timestamp : Int
  base_symbol : String
  quote_symbol : String
  base_mint : String
  quote_mint : String
  price : FVal
  amount : ℚ
  side : String
  total_value : ℚ
  dex_program : String
  slot : Nat
deriving Repr, DecidableEq

/-- Body of the trade-consumption loop: fetch the oracle price (fallback 150.0
on error), replace an invalid price, then hand the trade to storage and to
broadcast.  Returns the (persisted, broadcast) pair. -/
def processTrade (trade : StreamTrade) (oracle : Option ℚ) :
    StreamTrade × StreamTrade :=
  let current_price := oracle.getD 150
  let validated :=
    if fvalLeZero trade.price || fvalIsInfinite trade.price || fvalIsNaN trade.price
    then { trade with price := FVal.fin current_price }
    else trade
  (validated, validated)

/-! Price ticker (trade_stream.rs, lines 104-112): the synthesized
price-only pseudo-trade JSON object. -/

/-- The fields of the price pseudo-trade JSON. -/
structure PriceTrade where
  id : String
  timestamp : Int
  base_symbol : String
  quote_symbol : String
  price : ℚ
  amount : ℚ
  side : String
deriving Repr, DecidableEq

/-- Build the ticker's pseudo-trade for the current pair and oracle price. -/
def price_trade (now : Int) (base_symbol quote_symbol : String) (price : ℚ) :
    PriceTrade :=
  { id := "price_" ++ toString now
    timestamp := now
    base_symbol := base_symbol
    quote_symbol := quote_symbol
    price := price
    amount := 0
    side := "price" }

/-! pair_mapping.rs -/

/-- symbol_to_mint: the allow-list symbol-to-mint table. -/
def symbol_to_mint (symbol : String) : Option String :=
  if symbol = "SOL" then some "So11111111111111111111111111111111111111112"
  else if symbol = "USDC" then some "EPjFWdd5AufqSSqeM2qN1xzybapC8G4wEGGkZwyTDt1v"
  else if symbol = "USDT" then some "Es9vMFrzaCERmJfrF4H2FYD4KCoNkY11McCe8BenwNYB"
  else if symbol = "BONK" then some "DezXAZ8z7PnrnRJjz3wXBoRgixCa6xjnB7YaB1pPB263"
  else if symbol = "JUP" then some "JUPyiwrYJFskUPiHa7hkeR8VUtAeFoSYbKedZNsDvCN"
  else if symbol = "WIF" then some "EKpQGSJtjMFqKZ9KQanSqYXRcF8fBopzLHYxdM65zcjm"
  else if symbol = "RAY" then some "4k3Dyjzvzp8eMZWUXbBCjEvwSkkk59S5iCNLY3QrkX6R"
  else none

/-- Split a character list at every slash, keeping empty segments, as
Rust str::split does. -/
def splitSlash : List Char → List (List Char)
  | [] => [[]]
  | c :: rest =>
    let r := splitSlash rest
    if c = '/' then [] :: r
    else
      match r with
      | [] => [[c]]
      | h :: t => (c :: h) :: t

/-- parse_pair: split "BASE/QUOTE" on the slash; exactly two parts required. -/
def parse_pair (pair : String) : Option (String × String) :=
  match (splitSlash pair.toList).map String.mk with
  | [a, b] => some (a, b)
  | _ => none

/-- pair_to_mints: resolve a pair string to the two mint addresses. -/
def pair_to_mints (pair : String) : Option (String × String) :=
  match parse_pair pair with
  | none => none
  | some (base_symbol, quote_symbol) =>
    match symbol_to_mint base_symbol, symbol_to_mint quote_symbol with
    | some base_mint, some quote_mint => some (base_mint, quote_mint)
    | _, _ => none

/-! websocket/manager.rs: ConnectionManager.  The registry is a list of
connection ids, the tokio broadcast channel is the list of messages published
so far, and selected_pair is the shared selection cell. -/

/-- The manager's shared state. -/
structure ManagerState where
  connections : List String
  channel : List String
  selected_pair : String
deriving Repr, DecidableEq

/-- ConnectionManager::new(): empty registry, default pair SOL/USDC. -/
def newManager : ManagerState :=
  { connections := [], channel := [], selected_pair := "SOL/USDC" }

/-- add_connection: register the id and hand back a receiver that observes
only messages published from this point on (its start index in the channel). -/
def add_connection (st : ManagerState) (id : String) : ManagerState × Nat :=
  ({ st with connections := id :: st.connections }, st.channel.length)

/-- remove_connection. -/
def remove_connection (st : ManagerState) (id : String) : ManagerState :=
  { st with connections := st.connections.filter fun c => c ≠ id }

/-- broadcast: read the registry size, publish to the channel only when at
least one connection is registered, and return the size. -/
def broadcast (st : ManagerState) (message : String) : Nat × ManagerState :=
  let count := st.connections.length
  if 0 < count then (count, { st with channel := st.channel ++ [message] })
  else (count, st)

/-- The messages a receiver subscribed at channel position pos has been
offered so far. -/
def receivedSince (st : ManagerState) (pos : Nat) : List String :=
  st.channel.drop pos

/-- set_selected_pair. -/
def set_selected_pair (st : ManagerState) (pair : String) : ManagerState :=
  { st with selected_pair := pair }

/-- get_selected_pair. -/
def get_selected_pair (st : ManagerState) : String :=
  st.selected_pair

/-! websocket/handler.rs: inbound client text frames, after JSON parsing. -/

/-- A parsed inbound client frame: a select_pair command carrying a pair
string, or any other recognized-but-ignored message type. -/
inductive ClientMessage where
  | select_pair : String → ClientMessage
  | other : String → ClientMessage
deriving Repr, DecidableEq

/-- handle_socket's reaction to a parsed client message: select_pair mutates
the shared selection state, everything else is logged and ignored. -/
def handle_client_message (st : ManagerState) (m : ClientMessage) : ManagerState :=
  match m with
  | .select_pair pair => set_selected_pair st pair
  | .other _ => st

/-- One price-ticker cycle's pair resolution (trade_stream.rs lines 93-99):
read the currently selected pair from the manager and resolve it to mints. -/
def ticker_query (st : ManagerState) : Option (String × String) :=
  pair_to_mints (get_selected_pair st)

/-! Concrete inputs used in counterexamples and witnesses. -/

/-- A transaction whose aggregated balances are SOL: 10 -> 15 and
USDC: 100 -> 40 (the spec's mintA / mintB example, with two allow-listed
mints). -/
def txC1 : TransactionData :=
  { slot := 0
    block_time := some 1700000000
    meta := some
      { pre_token_balances := some
          [ { account_index := 0
              mint := "So11111111111111111111111111111111111111112"
              ui_token_amount := some { ui_amount := some 10 } }
          , { account_index := 1
              mint := "EPjFWdd5AufqSSqeM2qN1xzybapC8G4wEGGkZwyTDt1v"
              ui_token_amount := some { ui_amount := some 100 } } ]
        post_token_balances := some
          [ { account_index := 0
              mint := "So11111111111111111111111111111111111111112"
              ui_token_amount := some { ui_amount := some 15 } }
          , { account_index := 1
              mint := "EPjFWdd5AufqSSqeM2qN1xzybapC8G4wEGGkZwyTDt1v"
              ui_token_amount := some { ui_amount := some 40 } } ]
        log_messages := none
        err := none } }

/-- The trade the code actually reconstructs from txC1: the larger-delta mint
(USDC, delta 60) is ranked base, the smaller (SOL, delta 5) quote. -/
def tradeC1 : Trade :=
  { id := "sigC1"
    timestamp := 1700000000
    base_symbol := "USDC"
    quote_symbol := "SOL"
    base_mint := "EPjFWdd5AufqSSqeM2qN1xzybapC8G4wEGGkZwyTDt1v"
    quote_mint := "So11111111111111111111111111111111111111112"
    price := 1/12
    amount := 60
    side := "sell"
    total_value := 5
    dex_program := "Unknown"
    slot := 123 }

/-- A transaction whose two nonzero-delta mints are outside the allow-list. -/
def txC3 : TransactionData :=
  { slot := 0
    block_time := some 1700000000
    meta := some
      { pre_token_balances := some
          [ { account_index := 0
              mint := "MINTX"
              ui_token_amount := some { ui_amount := some 0 } }
          , { account_index := 1
              mint := "MINTY"
              ui_token_amount := some { ui_amount := some 2 } } ]
        post_token_balances := some
          [ { account_index := 0
              mint := "MINTX"
              ui_token_amount := some { ui_amount := some 1 } }
          , { account_index := 1
              mint := "MINTY"
              ui_token_amount := some { ui_amount := some 0 } } ]
        log_messages := none
        err := none } }

/-- Balance metadata with only one nonzero-delta mint (SOL: 0 -> 3). -/
def metaC7 : TransactionMeta :=
  { pre_token_balances := some
      [ { account_index := 0
          mint := "So11111111111111111111111111111111111111112"
          ui_token_amount := some { ui_amount := some 0 } } ]
    post_token_balances := some
      [ { account_index := 0
          mint := "So11111111111111111111111111111111111111112"
          ui_token_amount := some { ui_amount := some 3 } } ]
    log_messages := none
    err := none }

/-- A transaction with balance metadata but only one nonzero-delta mint. -/
def txC7 : TransactionData :=
  { slot := 0
    block_time := some 1700000000
    meta := some metaC7 }

/-- A successful notification with signature s1 at slot 5. -/
def notifOkA : LogNotif :=
  { slot := 5, value := { signature := "s1", err := none, logs := [] } }

/-- A second successful notification with the same signature s1. -/
def notifOkB : LogNotif :=
  { slot := 6, value := { signature := "s1", err := none, logs := [] } }

/-- A failed notification (non-null err) with signature s1. -/
def notifFailed : LogNotif :=
  { slot := 4, value := { signature := "s1", err := some "e", logs := [] } }

/-- A channel trade carrying a NaN price. -/
def streamTradeNaN : StreamTrade :=
  { id := "t1"
    timestamp := 0
    base_symbol := "SOL"
    quote_symbol := "USDC"
    base_mint := "So11111111111111111111111111111111111111112"
    quote_mint := "EPjFWdd5AufqSSqeM2qN1xzybapC8G4wEGGkZwyTDt1v"
    price := FVal.nan
    amount := 2
    side := "buy"
    total_value := 0
    dex_program := "Raydium"
    slot := 9 }

/-- A channel trade carrying a valid positive finite price. -/
def streamTradeOk : StreamTrade :=
  { id := "t2"
    timestamp := 0
    base_symbol := "SOL"
    quote_symbol := "USDC"
    base_mint := "So11111111111111111111111111111111111111112"
    quote_mint := "EPjFWdd5AufqSSqeM2qN1xzybapC8G4wEGGkZwyTDt1v"
    price := FVal.fin 150
    amount := 2
    side := "sell"
    total_value := 300
    dex_program := "Raydium"
    slot := 9 }

/-! Helper lemmas. -/

theorem ratAbs_nonneg (q : ℚ) : 0 ≤ ratAbs q := by
  unfold ratAbs
  split <;> linarith

theorem subRun_cons (seen : List String) (n : LogNotif) (rest : List LogNotif) :
    subRun seen (n :: rest) =
      ((subRun (subStep seen n).1 rest).1,
        (subStep seen n).2.toList ++ (subRun (subStep seen n).1 rest).2) := by
  simp [subRun]

theorem noClear_cons (seen : List String) (n : LogNotif) (rest : List LogNotif)
    (h : noClear seen (n :: rest) = true) :
    stepClears seen n = false ∧ noClear (subStep seen n).1 rest = true := by
  rw [noClear, Bool.and_eq_true] at h
  exact ⟨by simpa using h.1, h.2⟩

theorem subStep_of_seen (seen : List String) (n : LogNotif)
    (h : seenContains seen n.value.signature = true) :
    subStep seen n = (seen, none) := by
  simp [subStep, h]

theorem stepClears_false_no_clear (seen : List String) (n : LogNotif)
    (h1 : seenContains seen n.value.signature = false)
    (h2 : stepClears seen n = false) :
    ¬1000 < seen.length + 1 := by
  simp [stepClears, h1] at h2
  omega

theorem subStep_fst_of_unseen (seen : List String) (n : LogNotif)
    (h1 : seenContains seen n.value.signature = false)
    (h2 : stepClears seen n = false) :
    (subStep seen n).1 = n.value.signature :: seen := by
  have hlen := stepClears_false_no_clear seen n h1 h2
  simp [subStep, h1, hlen]
  split <;> rfl

theorem subStep_snd_of_unseen (seen : List String) (n : LogNotif)
    (h1 : seenContains seen n.value.signature = false) :
    (subStep seen n).2 =
      if (n.value.err).isSome then none else some (n.value.signature, n.slot) := by
  simp [subStep, h1]
  split <;> simp

theorem countDispatch_nil (s : String) : countDispatch s [] = 0 := rfl

theorem countDispatch_append (s : String) (l1 l2 : List (String × Nat)) :
    countDispatch s (l1 ++ l2) = countDispatch s l1 + countDispatch s l2 := by
  simp [countDispatch, List.filter_append]

theorem countDispatch_toList_none (s : String) :
    countDispatch s (Option.toList (none : Option (String × Nat))) = 0 := rfl

theorem countDispatch_toList_ne (s a : String) (k : Nat) (h : a ≠ s) :
    countDispatch s (Option.toList (some (a, k))) = 0 := by
  simp [countDispatch, h]

theorem countDispatch_toList_le_one (s : String) (o : Option (String × Nat)) :
    countDispatch s o.toList ≤ 1 := by
  cases o with
  | none => simp [countDispatch]
  | some d =>
    simp only [Option.toList, countDispatch]
    cases hd : List.filter (fun x => decide (x.1 = s)) [d] with
    | nil => simp
    | cons h t =>
      have hsub := List.filter_sublist (l := [d]) (p := fun x => decide (x.1 = s))
      rw [hd] at hsub
      have := hsub.length_le
      simpa using this

theorem subStep_head_count_of_unseen (s : String) (seen : List String) (n : LogNotif)
    (h1 : seenContains seen n.value.signature = false)
    (hne : n.value.signature ≠ s) :
    countDispatch s (subStep seen n).2.toList = 0 := by
  rw [subStep_snd_of_unseen seen n h1]
  split
  · exact countDispatch_toList_none s
  · exact countDispatch_toList_ne s _ _ hne

theorem seenContains_cons_self (s : String) (l : List String) :
    seenContains (s :: l) s = true := by
  simp [seenContains]

theorem seenContains_cons_of (a s : String) (l : List String)
    (h : seenContains l s = true) :
    seenContains (a :: l) s = true := by
  simp [seenContains] at h ⊢
  exact Or.inr h

theorem seenContains_cons_ne (a s : String) (l : List String)
    (ha : a ≠ s) (h : seenContains l s = false) :
    seenContains (a :: l) s = false := by
  simp [seenContains] at h ⊢
  exact ⟨fun he => absurd he ha, h⟩

theorem firstSigFailed_cons_self (s : String) (n : LogNotif) (rest : List LogNotif)
    (h : n.value.signature = s) (hff : firstSigFailed s (n :: rest) = true) :
    (n.value.err).isSome = true := by
  unfold firstSigFailed at hff
  rw [List.filter_cons, if_pos (by simpa using h)] at hff
  simpa using hff

theorem firstSigFailed_cons_ne (s : String) (n : LogNotif) (rest : List LogNotif)
    (h : n.value.signature ≠ s) (hff : firstSigFailed s (n :: rest) = true) :
    firstSigFailed s rest = true := by
  unfold firstSigFailed at hff ⊢
  rw [List.filter_cons, if_neg (by simpa using h)] at hff
  exact hff

/-- Once a signature is in the seen set, a clear-free run never dispatches a
fetch for it again. -/
theorem noDispatch_of_seen (s : String) :
    ∀ (ns : List LogNotif) (seen : List String),
      noClear seen ns = true → seenContains seen s = true →
      countDispatch s (subRun seen ns).2 = 0 := by
  intro ns
  induction ns with
  | nil =>
    intro seen _ _
    simp [subRun, countDispatch]
  | cons n rest ih =>
    intro seen hnc hmem
    obtain ⟨hsc, hnc2⟩ := noClear_cons seen n rest hnc
    rw [subRun_cons, countDispatch_append]
    by_cases hsig : seenContains seen n.value.signature = true
    · have hstep := subStep_of_seen seen n hsig
      rw [hstep] at hnc2 ⊢
      rw [countDispatch_toList_none, ih seen hnc2 hmem]
    · rw [Bool.not_eq_true] at hsig
      have hne : n.value.signature ≠ s := by
        intro he
        rw [he, hmem] at hsig
        cases hsig
      have hfst := subStep_fst_of_unseen seen n hsig hsc
      rw [hfst] at hnc2 ⊢
      rw [subStep_head_count_of_unseen s seen n hsig hne]
      rw [ih (n.value.signature :: seen) hnc2 (seenContains_cons_of _ _ _ hmem)]

/-- A clear-free run dispatches at most one fetch per signature. -/
theorem dispatch_le_one (s : String) :
    ∀ (ns : List LogNotif) (seen : List String),
      noClear seen ns = true →
      countDispatch s (subRun seen ns).2 ≤ 1 := by
  intro ns
  induction ns with
  | nil =>
    intro seen _
    simp [subRun, countDispatch]
  | cons n rest ih =>
    intro seen hnc
    obtain ⟨hsc, hnc2⟩ := noClear_cons seen n rest hnc
    rw [subRun_cons, countDispatch_append]
    by_cases hsig : seenContains seen n.value.signature = true
    · have hstep := subStep_of_seen seen n hsig
      rw [hstep] at hnc2 ⊢
      rw [countDispatch_toList_none]
      simpa using ih seen hnc2
    · rw [Bool.not_eq_true] at hsig
      have hfst := subStep_fst_of_unseen seen n hsig hsc
      rw [hfst] at hnc2 ⊢
      by_cases hne : n.value.signature = s
      · have hmem2 : seenContains (n.value.signature :: seen) s = true := by
          rw [← hne]
          exact seenContains_cons_self _ _
        rw [noDispatch_of_seen s rest (n.value.signature :: seen) hnc2 hmem2]
        have hle := countDispatch_toList_le_one s (subStep seen n).2
        omega
      · rw [subStep_head_count_of_unseen s seen n hsig hne]
        simpa using ih (n.value.signature :: seen) hnc2

/-- If the first notification carrying signature s is a failed one, a
clear-free run starting from a set not containing s never dispatches s. -/
theorem noDispatch_of_first_failed (s : String) :
    ∀ (ns : List LogNotif) (seen : List String),
      noClear seen ns = true → seenContains seen s = false →
      firstSigFailed s ns = true →
      countDispatch s (subRun seen ns).2 = 0 := by
  intro ns
  induction ns with
  | nil =>
    intro seen _ _ _
    simp [subRun, countDispatch]
  | cons n rest ih =>
    intro seen hnc hunseen hff
    obtain ⟨hsc, hnc2⟩ := noClear_cons seen n rest hnc
    rw [subRun_cons, countDispatch_append]
    by_cases hsig : n.value.signature = s
    · have herr := firstSigFailed_cons_self s n rest hsig hff
      have hunseen2 : seenContains seen n.value.signature = false := by
        rw [hsig]
        exact hunseen
      have hfst := subStep_fst_of_unseen seen n hunseen2 hsc
      rw [hfst] at hnc2 ⊢
      have hcd : countDispatch s (subStep seen n).2.toList = 0 := by
        rw [subStep_snd_of_unseen seen n hunseen2, if_pos herr]
        exact countDispatch_toList_none s
      rw [hcd]
      have hmem2 : seenContains (n.value.signature :: seen) s = true := by
        rw [hsig]
        exact seenContains_cons_self _ _
      rw [noDispatch_of_seen s rest (n.value.signature :: seen) hnc2 hmem2]
    · have hff2 := firstSigFailed_cons_ne s n rest hsig hff
      by_cases hseen : seenContains seen n.value.signature = true
      · have hstep := subStep_of_seen seen n hseen
        rw [hstep] at hnc2 ⊢
        rw [countDispatch_toList_none, ih seen hnc2 hunseen hff2]
      · rw [Bool.not_eq_true] at hseen
        have hfst := subStep_fst_of_unseen seen n hseen hsc
        rw [hfst] at hnc2 ⊢
        rw [subStep_head_count_of_unseen s seen n hseen hsig]
        have hunseen2 := seenContains_cons_ne n.value.signature s seen hsig hunseen
        rw [ih (n.value.signature :: seen) hnc2 hunseen2 hff2]

theorem baseAmount_eq_mintDelta (pre post : List TokenBalance) :
    baseAmount pre post = mintDelta pre post (baseMint pre post) := rfl

theorem quoteAmount_eq_mintDelta (pre post : List TokenBalance) :
    quoteAmount pre post = mintDelta pre post (quoteMint pre post) := rfl

theorem is_allowed_mint_unknown : is_allowed_mint "UNKNOWN" = false := by decide

theorem baseAmount_pos_of_allowed (pre post : List TokenBalance)
    (h : is_allowed_mint (baseMint pre post) = true) :
    0 < baseAmount pre post := by
  cases hs : sortedDeltas pre post with
  | nil =>
    rw [baseMint, hs] at h
    simp at h
    rw [is_allowed_mint_unknown] at h
    cases h
  | cons p rest =>
    have hbm : baseMint pre post = p.1 := by
      rw [baseMint, hs]
      simp
    have hp : p ∈ sortedDeltas pre post := by
      rw [hs]
      exact List.mem_cons_self p rest
    rw [sortedDeltas, List.mem_insertionSort] at hp
    rw [mintDeltas, List.mem_filter] at hp
    obtain ⟨hmap, hpos⟩ := hp
    rw [List.mem_map] at hmap
    obtain ⟨m, _, hm⟩ := hmap
    have hp2 : p.2 = mintDelta pre post p.1 := by
      rw [← hm]
    rw [baseAmount_eq_mintDelta, hbm, ← hp2]
    simpa using hpos

theorem quoteAmount_nonneg (pre post : List TokenBalance) :
    0 ≤ quoteAmount pre post := by
  unfold quoteAmount
  exact ratAbs_nonneg _

theorem finalPrice_nonneg (pre post : List TokenBalance) :
    0 ≤ finalPrice pre post := by
  unfold finalPrice
  split
  · exact div_nonneg (quoteAmount_nonneg pre post) (le_of_lt (by assumption))
  · exact le_refl 0

theorem sideOf_buy_or_sell (pre post : List TokenBalance) :
    sideOf pre post = "buy" ∨ sideOf pre post = "sell" := by
  unfold sideOf
  split
  · exact Or.inl rfl
  · exact Or.inr rfl

theorem construct_trade_none_of_not_allowed (signature : String) (slot : Nat)
    (tx : TransactionData) (now : Int)
    (h : ¬(is_allowed_mint (txCandidates tx).1 = true ∧
           is_allowed_mint (txCandidates tx).2 = true)) :
    construct_trade signature slot tx now = none := by
  cases htx : tx.meta with
  | none => simp [construct_trade, htx]
  | some meta =>
    simp only [txCandidates, htx] at h
    simp only [construct_trade, htx]
    rw [if_pos]
    exact h

theorem quoteMint_unknown_of_short (pre post : List TokenBalance)
    (h : (mintDeltas pre post).length < 2) :
    quoteMint pre post = "UNKNOWN" := by
  unfold quoteMint
  have hlen : (sortedDeltas pre post).length < 2 := by
    unfold sortedDeltas
    rw [List.length_insertionSort]
    exact h
  rw [List.getElem?_eq_none (by omega)]
  rfl

theorem construct_trade_txC1_eval :
    construct_trade "sigC1" 123 txC1 0 = some tradeC1 := by
  simp [construct_trade, txC1, tradeC1, baseMint, quoteMint, sortedDeltas, mintDeltas,
    allMints, mintKeys, mintDelta, ratAbs, aggAmount, balanceAmount, List.insertionSort,
    List.orderedInsert, baseAmount, quoteAmount, finalPrice, baseDelta, sideOf,
    mint_to_symbol, is_allowed_mint, dexProgramOf, List.dedup, List.pwFilter]
  norm_num
  simp [mintDelta, ratAbs, aggAmount, balanceAmount]
  norm_num

/-! Claim theorems. -/

/-- C1 (counterexample): on the record with aggregated balances
mintA = SOL: 10 -> 15 and mintB = USDC: 100 -> 40 (both allow-listed), the
reconstruction does NOT return base mint mintA with amount 5, price 12 and
side buy: the code ranks the larger delta (mintB) as base. -/
theorem reconstruct_example_claim_false :
    (construct_trade "sigC1" 123 txC1 0).map Trade.base_mint ≠
      some "So11111111111111111111111111111111111111112" ∧
    (construct_trade "sigC1" 123 txC1 0).map Trade.amount ≠ some 5 ∧
    (construct_trade "sigC1" 123 txC1 0).map Trade.price ≠ some 12 ∧
    (construct_trade "sigC1" 123 txC1 0).map Trade.side ≠ some "buy" := by
  rw [construct_trade_txC1_eval]
  refine ⟨by simp [tradeC1], by simp [tradeC1], ?_, by simp [tradeC1]⟩
  simp [tradeC1]
  norm_num

/-- C1 (amended): on the record with aggregated balances mintA = SOL: 10 -> 15
and mintB = USDC: 100 -> 40 (both allow-listed), the resulting Trade has base
mint mintB, amount 60, quote mint mintA, price 1/12 (quote amount 5 over base
amount 60), and side sell. -/
theorem reconstruct_example_amended :
    construct_trade "sigC1" 123 txC1 0 = some tradeC1 ∧
    tradeC1.base_mint = "EPjFWdd5AufqSSqeM2qN1xzybapC8G4wEGGkZwyTDt1v" ∧
    tradeC1.amount = 60 ∧
    tradeC1.quote_mint = "So11111111111111111111111111111111111111112" ∧
    tradeC1.price = 1/12 ∧
    tradeC1.side = "sell" :=
  ⟨construct_trade_txC1_eval, rfl, rfl, rfl, rfl, rfl⟩

/-- C2: in the supervisor's trade-consumption loop, a trade whose price is
NaN, infinite or non-positive is persisted and broadcast with its price
replaced by the oracle price fetched for this trade, and a trade with a
positive finite price is persisted and broadcast unchanged. -/
theorem price_validation (t : StreamTrade) (oracle : Option ℚ) (p : ℚ)
    (hor : oracle = some p) :
    ((fvalLeZero t.price || fvalIsInfinite t.price || fvalIsNaN t.price) = true →
      (processTrade t oracle).1 = { t with price := FVal.fin p } ∧
      (processTrade t oracle).2 = { t with price := FVal.fin p }) ∧
    (∀ q : ℚ, t.price = FVal.fin q → 0 < q →
      (processTrade t oracle).1 = t ∧ (processTrade t oracle).2 = t) := by
  constructor
  · intro hbad
    constructor <;> simp [processTrade, hor, hbad]
  · intro q hq hpos
    have hcond :
        (fvalLeZero t.price || fvalIsInfinite t.price || fvalIsNaN t.price) = false := by
      rw [hq]
      simp [fvalLeZero, fvalIsInfinite, fvalIsNaN]
      linarith
    constructor <;> simp [processTrade, hcond]

/-- C2 witness: a NaN-priced trade gets the oracle price 100; a trade priced
at the positive finite 150 passes through unchanged. -/
theorem price_validation_witness :
    (processTrade streamTradeNaN (some 100)).1 =
      { streamTradeNaN with price := FVal.fin 100 } ∧
    (processTrade streamTradeOk (some 100)).1 = streamTradeOk :=
  ⟨((price_validation streamTradeNaN (some 100) 100 rfl).1 (by decide)).1,
   ((price_validation streamTradeOk (some 100) 100 rfl).2 150 rfl (by norm_num)).1⟩

/-- C3: whenever the two candidate (largest-delta) mints of a transaction are
not both in the allow-list, the reconstruction returns nothing. -/
theorem allow_list_filter (signature : String) (slot : Nat)
    (tx : TransactionData) (now : Int)
    (h : ¬(is_allowed_mint (txCandidates tx).1 = true ∧
           is_allowed_mint (txCandidates tx).2 = true)) :
    construct_trade signature slot tx now = none :=
  construct_trade_none_of_not_allowed signature slot tx now h

/-- C3 witness: the record moving the unlisted mints MINTX and MINTY is
rejected. -/
theorem allow_list_filter_witness :
    ¬(is_allowed_mint (txCandidates txC3).1 = true ∧
      is_allowed_mint (txCandidates txC3).2 = true) ∧
    construct_trade "sigX" 7 txC3 0 = none := by
  have hc : txCandidates txC3 = ("MINTY", "MINTX") := by
    simp [txCandidates, txC3, baseMint, quoteMint, sortedDeltas, mintDeltas, allMints,
      mintKeys, mintDelta, ratAbs, aggAmount, balanceAmount, List.insertionSort,
      List.orderedInsert, List.dedup, List.pwFilter]
    norm_num
  have h : ¬(is_allowed_mint (txCandidates txC3).1 = true ∧
      is_allowed_mint (txCandidates txC3).2 = true) := by
    rw [hc]
    decide
  exact ⟨h, allow_list_filter "sigX" 7 txC3 0 h⟩

/-- C4: over any notification sequence in which a signature appears at least
twice and the seen-signature set is never cleared (never exceeds the
1000-entry cap), at most one fetch is dispatched for that signature. -/
theorem dedup_at_most_one_fetch (ns : List LogNotif) (s : String)
    (hcap : noClear [] ns = true) (_hk : 2 ≤ countSig s ns) :
    countDispatch s (subRun [] ns).2 ≤ 1 :=
  dispatch_le_one s ns [] hcap

/-- C4 witness: two successful notifications with the same signature yield at
most one dispatched fetch. -/
theorem dedup_at_most_one_fetch_witness :
    noClear [] [notifOkA, notifOkB] = true ∧
    2 ≤ countSig "s1" [notifOkA, notifOkB] ∧
    countDispatch "s1" (subRun [] [notifOkA, notifOkB]).2 ≤ 1 :=
  ⟨by decide, by decide,
   dedup_at_most_one_fetch [notifOkA, notifOkB] "s1" (by decide) (by decide)⟩

/-- C5: a notification with a non-null err field never produces a fetch
dispatch, and this is the only semantic rejection besides dedup: a
not-yet-seen notification with err null is always dispatched. -/
theorem failed_tx_rejected (seen : List String) (n : LogNotif) :
    ((n.value.err).isSome = true → (subStep seen n).2 = none) ∧
    (n.value.err = none → seenContains seen n.value.signature = false →
      (subStep seen n).2 = some (n.value.signature, n.slot)) := by
  constructor
  · intro herr
    by_cases hseen : seenContains seen n.value.signature = true
    · rw [subStep_of_seen seen n hseen]
    · rw [Bool.not_eq_true] at hseen
      rw [subStep_snd_of_unseen seen n hseen, if_pos herr]
  · intro herr hunseen
    rw [subStep_snd_of_unseen seen n hunseen, if_neg (by simp [herr])]

/-- C5 witness: the failed notification is dropped, the fresh successful one
is dispatched. -/
theorem failed_tx_rejected_witness :
    (subStep [] notifFailed).2 = none ∧
    (subStep [] notifOkA).2 = some ("s1", 5) :=
  ⟨(failed_tx_rejected [] notifFailed).1 (by decide),
   (failed_tx_rejected [] notifOkA).2 (by decide) (by decide)⟩

/-- C6: every Trade returned by the reconstruction has side buy or sell,
positive amount and non-negative price, and every ticker pseudo-trade has
side price and amount 0 — the data-model invariant. -/
theorem pipeline_trade_invariant :
    (∀ (signature : String) (slot : Nat) (tx : TransactionData) (now : Int)
        (t : Trade),
      construct_trade signature slot tx now = some t →
      (t.side = "buy" ∨ t.side = "sell") ∧ 0 < t.amount ∧ 0 ≤ t.price) ∧
    (∀ (now : Int) (bs qs : String) (p : ℚ),
      (price_trade now bs qs p).side = "price" ∧
      (price_trade now bs qs p).amount = 0) := by
  constructor
  · intro signature slot tx now t h
    cases htx : tx.meta with
    | none =>
      simp [construct_trade, htx] at h
    | some meta =>
      simp only [construct_trade, htx] at h
      split at h
      · cases h
      · rename_i hcond
        rw [not_not] at hcond
        obtain ⟨hA, hB⟩ := hcond
        injection h with h2
        subst h2
        exact ⟨sideOf_buy_or_sell _ _,
          baseAmount_pos_of_allowed _ _ hA,
          finalPrice_nonneg _ _⟩
  · intro now bs qs p
    exact ⟨rfl, rfl⟩

/-- C6 witness: the invariant instantiated at the concretely reconstructed
tradeC1 and at a concrete ticker pseudo-trade. -/
theorem pipeline_trade_invariant_witness :
    ((tradeC1.side = "buy" ∨ tradeC1.side = "sell") ∧
      0 < tradeC1.amount ∧ 0 ≤ tradeC1.price) ∧
    (price_trade 5 "SOL" "USDC" 150).side = "price" ∧
    (price_trade 5 "SOL" "USDC" 150).amount = 0 :=
  ⟨pipeline_trade_invariant.1 "sigC1" 123 txC1 0 tradeC1 construct_trade_txC1_eval,
   pipeline_trade_invariant.2 5 "SOL" "USDC" 150⟩

/-- C7: a record with balance metadata in which fewer than two mints have a
nonzero aggregated delta is rejected (the UNKNOWN placeholder in the missing
slot fails the allow-list filter). -/
theorem fewer_than_two_deltas_rejected (signature : String) (slot : Nat)
    (tx : TransactionData) (now : Int) (meta : TransactionMeta)
    (hmeta : tx.meta = some meta)
    (hlt : (mintDeltas (meta.pre_token_balances.getD [])
        (meta.post_token_balances.getD [])).length < 2) :
    construct_trade signature slot tx now = none := by
  have hq : (txCandidates tx).2 = "UNKNOWN" := by
    simp only [txCandidates, hmeta]
    exact quoteMint_unknown_of_short _ _ hlt
  apply construct_trade_none_of_not_allowed
  intro hcon
  obtain ⟨-, h2⟩ := hcon
  rw [hq, is_allowed_mint_unknown] at h2
  cases h2

/-- C7 witness: the single-delta record txC7 is rejected. -/
theorem fewer_than_two_deltas_rejected_witness :
    txC7.meta = some metaC7 ∧
    (mintDeltas (metaC7.pre_token_balances.getD [])
      (metaC7.post_token_balances.getD [])).length < 2 ∧
    construct_trade "sigY" 3 txC7 0 = none := by
  have hlt : (mintDeltas (metaC7.pre_token_balances.getD [])
      (metaC7.post_token_balances.getD [])).length < 2 := by
    simp [mintDeltas, allMints, mintKeys, mintDelta, ratAbs, aggAmount, balanceAmount,
      metaC7, List.dedup, List.pwFilter]
    exact lt_of_le_of_lt (List.length_filter_le _ _) (by norm_num)
  exact ⟨rfl, hlt, fewer_than_two_deltas_rejected "sigY" 3 txC7 0 metaC7 rfl hlt⟩

/-- C8: the selection state defaults to SOL/USDC, get-after-set returns the
value just set, a select_pair JUP/USDC command sets the state to JUP/USDC,
and the next ticker cycle resolves exactly that pair's mints, regardless of
the previously selected pair. -/
theorem pair_selection_propagation (st : ManagerState) :
    get_selected_pair newManager = "SOL/USDC" ∧
    (∀ p : String, get_selected_pair (set_selected_pair st p) = p) ∧
    get_selected_pair
      (handle_client_message st (ClientMessage.select_pair "JUP/USDC")) = "JUP/USDC" ∧
    ticker_query (handle_client_message st (ClientMessage.select_pair "JUP/USDC")) =
      some ("JUPyiwrYJFskUPiHa7hkeR8VUtAeFoSYbKedZNsDvCN",
        "EPjFWdd5AufqSSqeM2qN1xzybapC8G4wEGGkZwyTDt1v") := by
  refine ⟨rfl, fun p => rfl, rfl, ?_⟩
  show pair_to_mints "JUP/USDC" = _
  decide

/-- C9: the subscription loop inserts a signature into the seen set before
the failed-transaction check, so when the first notification for a signature
is failed, a later successful duplicate is dropped and no fetch is ever
dispatched for that signature (absent a set clear). -/
theorem insert_precedes_err_check :
    (∀ (seen : List String) (n : LogNotif),
      seenContains seen n.value.signature = false → stepClears seen n = false →
      (subStep seen n).1 = n.value.signature :: seen) ∧
    (∀ (ns : List LogNotif) (s : String),
      noClear [] ns = true → firstSigFailed s ns = true →
      (∃ n, n ∈ ns ∧ n.value.signature = s ∧ n.value.err = none) →
      countDispatch s (subRun [] ns).2 = 0) := by
  constructor
  · exact subStep_fst_of_unseen
  · intro ns s hnc hff _
    exact noDispatch_of_first_failed s ns [] hnc rfl hff

/-- C9 witness: failed then successful notification for the same signature;
no fetch is dispatched. -/
theorem insert_precedes_err_check_witness :
    noClear [] [notifFailed, notifOkB] = true ∧
    firstSigFailed "s1" [notifFailed, notifOkB] = true ∧
    countDispatch "s1" (subRun [] [notifFailed, notifOkB]).2 = 0 :=
  ⟨by decide, by decide,
   insert_precedes_err_check.2 [notifFailed, notifOkB] "s1" (by decide) (by decide)
     ⟨notifOkB, by decide, by decide, by decide⟩⟩

/-- C10: broadcast returns the number of registered connections at the time
of the call, and with zero connections the message is not published at all,
so a connection registered afterwards has received nothing. -/
theorem broadcast_count_and_skip_empty (st : ManagerState) (message : String) :
    (broadcast st message).1 = st.connections.length ∧
    (st.connections.length = 0 →
      (broadcast st message).2.channel = st.channel ∧
      ∀ id : String,
        receivedSince (add_connection (broadcast st message).2 id).1
          ((add_connection (broadcast st message).2 id).2) = []) := by
  constructor
  · simp only [broadcast]
    split <;> rfl
  · intro hzero
    have hb : broadcast st message = (0, st) := by
      simp only [broadcast, hzero]
      simp
    rw [hb]
    refine ⟨rfl, fun id => ?_⟩
    simp [receivedSince, add_connection, List.drop_length]

/-- C10 witness: broadcasting to the fresh manager reaches zero connections,
publishes nothing, and a subsequently added connection has received
nothing. -/
theorem broadcast_count_and_skip_empty_witness :
    (broadcast newManager "m").1 = 0 ∧
    (broadcast newManager "m").2.channel = [] ∧
    receivedSince (add_connection (broadcast newManager "m").2 "c1").1
      ((add_connection (broadcast newManager "m").2 "c1").2) = [] := by
  obtain ⟨h1, h2⟩ := broadcast_count_and_skip_empty newManager "m"
  have h3 := h2 rfl
  exact ⟨h1, h3.1, h3.2 "c1"⟩

end TradeDex
